import Mathlib

/-!
Verification of the IERS scoring and optimization engine.

The definitions below are a shallow embedding of the scoring and
optimization pseudocode of the repository
(docs/modules/05_SCORING_MODULE.md and the optimization module document):
`calculateEmployeeScore`, `calculateSkillMatch`, `calculateLevelMatch`,
`calculateExperienceScore`, `calculateProgressionPotential`,
`calculateContextualFit`, `MandatorySkillConstraint.validate`,
`SeatConstraint.apply`, `breakTies` and `multiObjectiveOptimize`.
Numbers are rationals, JavaScript arrays are lists, early `return` is
modelled with `Option`, and the stable `Array.prototype.sort` is
modelled by stable insertion sort.
-/

/-- Ordinal skill levels, LOW < MEDIUM < HIGH < EXPERT. -/
inductive Level
  | LOW
  | MEDIUM
  | HIGH
  | EXPERT
deriving DecidableEq, Fintype

/-- The `levelMap` of the source: LOW 1, MEDIUM 2, HIGH 3, EXPERT 4. -/
def levelMap : Level → ℚ
  | Level.LOW => 1
  | Level.MEDIUM => 2
  | Level.HIGH => 3
  | Level.EXPERT => 4

/-- A required skill of an activity. -/
structure SkillRequirement where
  skillId : ℕ
  requiredLevel : Level
  weight : ℚ
  isMandatory : Bool
  minScore : ℚ
deriving DecidableEq

/-- A skill held by an employee. -/
structure EmployeeSkill where
  skillId : ℕ
  level : Level
  score : ℚ
deriving DecidableEq

/-- One entry of the skill evolution history. -/
structure SkillEvolution where
  previousScore : ℚ
  newScore : ℚ
deriving DecidableEq

/-- One entry of the activity history, kept only as its activity type. -/
structure ActivityRecord where
  activityType : ℕ
deriving DecidableEq

/-- An employee profile, the fields the scoring engine reads. -/
structure Employee where
  id : ℕ
  skills : List EmployeeSkill
  yearsOfExperience : ℚ
  skillEvolution : List SkillEvolution
  history : List ActivityRecord
  level : Level
deriving DecidableEq

/-- An activity profile.  `filledSeats` comes from the data model of the
spec; the optimization pseudocode never reads it. -/
structure Activity where
  requiredSkills : List SkillRequirement
  targetLevel : Level
  activityType : ℕ
  availableSeats : ℕ
  filledSeats : ℕ
deriving DecidableEq

/-- The breakdown part of the score result. -/
structure ScoreBreakdown where
  skillScore : ℚ
  experienceScore : ℚ
  progressionScore : ℚ
  contextScore : ℚ
deriving DecidableEq

/-- The value returned by `calculateEmployeeScore`. -/
structure ScoreResult where
  totalScore : ℚ
  breakdown : ScoreBreakdown
deriving DecidableEq

/-- The `employeeSkills.find(s => s.skillId === required.skillId)` step. -/
def findSkill (skills : List EmployeeSkill) (id : ℕ) : Option EmployeeSkill :=
  skills.find? (fun s => s.skillId == id)

/-- The `calculateLevelMatch` of the source: 1.0 when the employee meets
or exceeds the requirement, else partial credit `emp / req * 0.7`. -/
def calculateLevelMatch (employeeLevel requiredLevel : Level) : ℚ :=
  let empLevel := levelMap employeeLevel
  let reqLevel := levelMap requiredLevel
  if reqLevel ≤ empLevel then 1 else empLevel / reqLevel * (7 / 10)

/-- The loop of `calculateSkillMatch`, carrying the `totalWeight` and
`weightedScore` accumulators; `none` models the early `return 0` taken
when a mandatory skill is missing. -/
def skillMatchLoop (employeeSkills : List EmployeeSkill) :
    List SkillRequirement → ℚ → ℚ → Option (ℚ × ℚ)
  | [], totalWeight, weightedScore => some (totalWeight, weightedScore)
  | required :: rest, totalWeight, weightedScore =>
    let totalWeight := totalWeight + required.weight
    match findSkill employeeSkills required.skillId with
    | none =>
      if required.isMandatory then none
      else skillMatchLoop employeeSkills rest totalWeight weightedScore
    | some employeeSkill =>
      let levelScore := calculateLevelMatch employeeSkill.level required.requiredLevel
      skillMatchLoop employeeSkills rest totalWeight
        (weightedScore + levelScore * required.weight)

/-- The `calculateSkillMatch` of the source. -/
def calculateSkillMatch (employeeSkills : List EmployeeSkill)
    (requiredSkills : List SkillRequirement) : ℚ :=
  match skillMatchLoop employeeSkills requiredSkills 0 0 with
  | none => 0
  | some (totalWeight, weightedScore) =>
    if 0 < totalWeight then weightedScore / totalWeight * 100 else 0

/-- Whether `calculateSkillMatch` takes the disqualifying early return
(a mandatory required skill is absent from the employee skill list). -/
def skillMatchDisqualified (employeeSkills : List EmployeeSkill)
    (requiredSkills : List SkillRequirement) : Bool :=
  (skillMatchLoop employeeSkills requiredSkills 0 0).isNone

/-- Modelled from the spec: `calculateRelevantExperience` is only called,
never defined, in the repository; the spec says relevant experience is
derived from activity-type-matching history, so we count the history
entries whose type matches the activity type. -/
def calculateRelevantExperience (history : List ActivityRecord)
    (activityType : ℕ) : ℚ :=
  ((history.filter (fun h => h.activityType == activityType)).length : ℚ)

/-- The `baseScore` term of `calculateExperienceScore`. -/
def experienceBase (totalExperience : ℚ) : ℚ :=
  min (totalExperience * 5) 50

/-- The `relevantBonus` term of `calculateExperienceScore`. -/
def experienceBonus (relevantExperience : ℚ) : ℚ :=
  min (relevantExperience * 10) 50

/-- The body of `calculateExperienceScore` as a function of the two
experience quantities it combines. -/
def experienceScoreCore (totalExperience relevantExperience : ℚ) : ℚ :=
  min (experienceBase totalExperience + experienceBonus relevantExperience) 100

/-- The `calculateExperienceScore` of the source. -/
def calculateExperienceScore (employee : Employee) (activityType : ℕ) : ℚ :=
  experienceScoreCore employee.yearsOfExperience
    (calculateRelevantExperience employee.history activityType)

/-- The `calculateProgressionPotential` of the source: neutral 50 on an
empty history, else `clamp(50 + avgImprovement * 2, 0, 100)` over the
last (at most) five evolutions. -/
def calculateProgressionPotential (skillEvolution : List SkillEvolution) : ℚ :=
  if skillEvolution.length = 0 then 50
  else
    let recentEvolutions := skillEvolution.drop (skillEvolution.length - 5)
    let totalImprovement :=
      (recentEvolutions.map (fun e => e.newScore - e.previousScore)).sum
    let avgImprovement := totalImprovement / (recentEvolutions.length : ℚ)
    min (max (50 + avgImprovement * 2) 0) 100

/-- The `calculateContextualFit` of the source. -/
def calculateContextualFit (targetLevel employeeLevel : Level) : ℚ :=
  let target := levelMap targetLevel
  let employee := levelMap employeeLevel
  if target = employee then 100
  else if |target - employee| = 1 then 80
  else if |target - employee| = 2 then 50
  else 20

/-- The `calculateEmployeeScore` of the source: the four sub-scores and
the weighted composite 0.5 / 0.2 / 0.15 / 0.15. -/
def calculateEmployeeScore (employee : Employee) (activity : Activity) :
    ScoreResult :=
  let skillScore := calculateSkillMatch employee.skills activity.requiredSkills
  let experienceScore := calculateExperienceScore employee activity.activityType
  let progressionScore := calculateProgressionPotential employee.skillEvolution
  let contextScore := calculateContextualFit activity.targetLevel employee.level
  let finalScore := skillScore * (5 / 10) + experienceScore * (2 / 10) +
    progressionScore * (15 / 100) + contextScore * (15 / 100)
  { totalScore := finalScore
    breakdown :=
      { skillScore := skillScore
        experienceScore := experienceScore
        progressionScore := progressionScore
        contextScore := contextScore } }

/-- The `MandatorySkillConstraint.validate` of the source: every mandatory
required skill must be present at a level not below the required one. -/
def mandatorySkillValidate (employee : Employee) (activity : Activity) : Bool :=
  (activity.requiredSkills.filter (fun s => s.isMandatory)).all
    (fun required =>
      match findSkill employee.skills required.skillId with
      | none => false
      | some employeeSkill =>
        !(levelMap employeeSkill.level < levelMap required.requiredLevel))

/-- The `SeatConstraint.apply` of the source:
`candidates.slice(0, activity.availableSeats)`. -/
def seatConstraintApply {α : Type} (candidates : List α)
    (activity : Activity) : List α :=
  candidates.take activity.availableSeats

/-- The weight sum the loop of `calculateSkillMatch` accumulates: every
required skill contributes its weight, present or not. -/
def skillWeightSum (requiredSkills : List SkillRequirement) : ℚ :=
  (requiredSkills.map fun r => r.weight).sum

/-- The weighted level-score sum the loop of `calculateSkillMatch`
accumulates: a required skill the employee lacks contributes 0. -/
def skillNumerator (employeeSkills : List EmployeeSkill)
    (requiredSkills : List SkillRequirement) : ℚ :=
  (requiredSkills.map fun r =>
    match findSkill employeeSkills r.skillId with
    | none => 0
    | some s => calculateLevelMatch s.level r.requiredLevel * r.weight).sum

/-- The weight sum of the spec formula: only the required skills the
employee actually has contribute their weight. -/
def specPresentWeightSum (employeeSkills : List EmployeeSkill)
    (requiredSkills : List SkillRequirement) : ℚ :=
  (requiredSkills.map fun r =>
    match findSkill employeeSkills r.skillId with
    | none => 0
    | some _ => r.weight).sum

/-- Stated from the spec for comparison with the code: the skill score
formula of the spec, with the weight of a missing optional skill excluded
from the denominator, and 0 when no weight remains. -/
def specSkillMatch (employeeSkills : List EmployeeSkill)
    (requiredSkills : List SkillRequirement) : ℚ :=
  if requiredSkills.any fun r =>
      r.isMandatory && (findSkill employeeSkills r.skillId).isNone then 0
  else if 0 < specPresentWeightSum employeeSkills requiredSkills then
    skillNumerator employeeSkills requiredSkills /
      specPresentWeightSum employeeSkills requiredSkills * 100
  else 0

/-- A candidate as consumed by the `breakTies` comparator, together with
the fields the tie-break sentences of the spec mention. -/
structure TieCandidate where
  candidateId : ℕ
  totalScore : ℚ
  progressionScore : ℚ
  contextScore : ℚ
  availabilityScore : ℚ
  lastActivityDate : ℚ
deriving DecidableEq

/-- The comparator of `breakTies` in the source: progression potential
descending, then availability score descending, then last activity date
ascending. -/
def tieCmp (a b : TieCandidate) : ℚ :=
  if a.progressionScore ≠ b.progressionScore then
    b.progressionScore - a.progressionScore
  else if a.availabilityScore ≠ b.availabilityScore then
    b.availabilityScore - a.availabilityScore
  else a.lastActivityDate - b.lastActivityDate

/-- `a` may come before `b` under the comparator of `breakTies`. -/
def tieLe (a b : TieCandidate) : Prop :=
  tieCmp a b ≤ 0

instance : DecidableRel tieLe :=
  fun a b => inferInstanceAs (Decidable (tieCmp a b ≤ 0))

/-- The `breakTies` of the source: `candidates.sort(comparator)`, a stable
sort by the comparator, modelled by stable insertion sort. -/
def breakTies (candidates : List TieCandidate) : List TieCandidate :=
  List.insertionSort tieLe candidates

/-- Stated from the spec for comparison with the code: the tie-break
precedence the spec claims, `a` strictly before `b`: higher
progressionScore, then higher contextScore, then older lastActivityDate,
then lexical candidate-id order. -/
def specTieBefore (a b : TieCandidate) : Prop :=
  b.progressionScore < a.progressionScore ∨
    (a.progressionScore = b.progressionScore ∧
      (b.contextScore < a.contextScore ∨
        (a.contextScore = b.contextScore ∧
          (a.lastActivityDate < b.lastActivityDate ∨
            (a.lastActivityDate = b.lastActivityDate ∧
              a.candidateId < b.candidateId)))))

instance (a b : TieCandidate) : Decidable (specTieBefore a b) := by
  unfold specTieBefore; infer_instance

/-- An entry of the Pareto front: the employee with its objective vector. -/
structure FrontEntry where
  employee : Employee
  scores : List ℚ
deriving DecidableEq

/-- Modelled from the spec: the dominance test used by `isDominated`,
which the repository only calls: `a` dominates `b` iff `a ≥ b` on every
objective and `a > b` on at least one. -/
def dominatesB (a b : List ℚ) : Bool :=
  ((a.zip b).all fun p => decide (p.2 ≤ p.1)) &&
    ((a.zip b).any fun p => decide (p.2 < p.1))

/-- Modelled from the spec: `isDominated(scores, paretoFront)` holds when
some member of the front so far dominates `scores`. -/
def isDominated (scores : List ℚ) (front : List FrontEntry) : Bool :=
  front.any fun e => dominatesB e.scores scores

/-- The objective vector of one employee. -/
def objScores (objectives : List (Employee → Activity → ℚ))
    (activity : Activity) (employee : Employee) : List ℚ :=
  objectives.map fun obj => obj employee activity

/-- The loop of `multiObjectiveOptimize`, carrying the `paretoFront`
accumulator; a candidate dominated by the front built so far is skipped,
otherwise it is pushed at the end. -/
def paretoLoop (objectives : List (Employee → Activity → ℚ))
    (activity : Activity) :
    List Employee → List FrontEntry → List FrontEntry
  | [], front => front
  | employee :: rest, front =>
    let scores := objScores objectives activity employee
    if isDominated scores front then paretoLoop objectives activity rest front
    else paretoLoop objectives activity rest
      (front ++ [{ employee := employee, scores := scores }])

/-- The `multiObjectiveOptimize` of the source. -/
def multiObjectiveOptimize (employees : List Employee) (activity : Activity)
    (objectives : List (Employee → Activity → ℚ)) : List FrontEntry :=
  paretoLoop objectives activity employees []

/-- Stated from the spec for comparison with the code: the Pareto-front
property the spec claims for the returned front over the full input set. -/
def specParetoFrontCorrect (employees : List Employee) (activity : Activity)
    (objectives : List (Employee → Activity → ℚ)) : Prop :=
  (∀ entry ∈ multiObjectiveOptimize employees activity objectives,
      ∀ e ∈ employees,
        ¬dominatesB (objScores objectives activity e) entry.scores = true) ∧
    (∀ e ∈ employees,
      (∀ entry ∈ multiObjectiveOptimize employees activity objectives,
          entry.employee ≠ e) →
        ∃ entry ∈ multiObjectiveOptimize employees activity objectives,
          dominatesB entry.scores (objScores objectives activity e) = true)

/-! Helper lemmas. -/

theorem findSkill_nil (id : ℕ) : findSkill [] id = none := rfl

theorem findSkill_cons (s : EmployeeSkill) (ss : List EmployeeSkill) (id : ℕ) :
    findSkill (s :: ss) id = if s.skillId = id then some s else findSkill ss id := by
  by_cases h : s.skillId = id <;> simp [findSkill, List.find?_cons, h]

theorem skillMatchLoop_eq_none_of_missing (es : List EmployeeSkill)
    (rs : List SkillRequirement) (tw ws : ℚ)
    (h : ∃ r ∈ rs, r.isMandatory = true ∧ findSkill es r.skillId = none) :
    skillMatchLoop es rs tw ws = none := by
  induction rs generalizing tw ws with
  | nil => rcases h with ⟨r, hr, _⟩; cases hr
  | cons a rest ih =>
    rcases h with ⟨r, hr, hm, hf⟩
    rcases List.mem_cons.mp hr with rfl | hr2
    · simp [skillMatchLoop, hf, hm]
    · cases hfind : findSkill es a.skillId with
      | none =>
        cases hman : a.isMandatory <;>
          simp [skillMatchLoop, hfind, hman, ih _ _ ⟨r, hr2, hm, hf⟩]
      | some s => simp [skillMatchLoop, hfind, ih _ _ ⟨r, hr2, hm, hf⟩]

theorem missing_of_skillMatchLoop_eq_none (es : List EmployeeSkill)
    (rs : List SkillRequirement) (tw ws : ℚ)
    (h : skillMatchLoop es rs tw ws = none) :
    ∃ r ∈ rs, r.isMandatory = true ∧ findSkill es r.skillId = none := by
  induction rs generalizing tw ws with
  | nil => simp [skillMatchLoop] at h
  | cons a rest ih =>
    cases hfind : findSkill es a.skillId with
    | none =>
      cases hman : a.isMandatory with
      | true => exact ⟨a, List.mem_cons_self a rest, hman, hfind⟩
      | false =>
        rw [skillMatchLoop, hfind] at h
        simp only [hman, if_neg Bool.false_ne_true] at h
        rcases ih _ _ h with ⟨r, hr, hm, hf⟩
        exact ⟨r, List.mem_cons_of_mem a hr, hm, hf⟩
    | some s =>
      rw [skillMatchLoop, hfind] at h
      rcases ih _ _ h with ⟨r, hr, hm, hf⟩
      exact ⟨r, List.mem_cons_of_mem a hr, hm, hf⟩

theorem skillMatchLoop_eq_some (es : List EmployeeSkill)
    (rs : List SkillRequirement) (tw ws : ℚ)
    (h : ∀ r ∈ rs, r.isMandatory = true → findSkill es r.skillId ≠ none) :
    skillMatchLoop es rs tw ws =
      some (tw + skillWeightSum rs, ws + skillNumerator es rs) := by
  induction rs generalizing tw ws with
  | nil => simp [skillMatchLoop, skillWeightSum, skillNumerator]
  | cons a rest ih =>
    have hrest : ∀ r ∈ rest, r.isMandatory = true → findSkill es r.skillId ≠ none :=
      fun r hr => h r (List.mem_cons_of_mem a hr)
    cases hfind : findSkill es a.skillId with
    | none =>
      have hman : a.isMandatory = false := by
        cases hm : a.isMandatory
        · rfl
        · exact absurd hfind (h a (List.mem_cons_self a rest) hm)
      rw [skillMatchLoop, hfind]
      simp only [hman, if_neg Bool.false_ne_true, ih _ _ hrest]
      simp [skillWeightSum, skillNumerator, hfind]
      first
      | (refine ⟨?_, ?_⟩ <;> (try trivial) <;> (try rfl) <;> ring)
      | ring
    | some s =>
      rw [skillMatchLoop, hfind]
      simp only [ih _ _ hrest]
      simp [skillWeightSum, skillNumerator, hfind]
      first
      | (refine ⟨?_, ?_⟩ <;> (try trivial) <;> (try rfl) <;> ring)
      | ring

theorem calculateEmployeeScore_total (emp : Employee) (act : Activity) :
    (calculateEmployeeScore emp act).totalScore =
      calculateSkillMatch emp.skills act.requiredSkills * (5 / 10) +
        calculateExperienceScore emp act.activityType * (2 / 10) +
        calculateProgressionPotential emp.skillEvolution * (15 / 100) +
        calculateContextualFit act.targetLevel emp.level * (15 / 100) := rfl

theorem calculateEmployeeScore_skill (emp : Employee) (act : Activity) :
    (calculateEmployeeScore emp act).breakdown.skillScore =
      calculateSkillMatch emp.skills act.requiredSkills := rfl

theorem calculateEmployeeScore_experience (emp : Employee) (act : Activity) :
    (calculateEmployeeScore emp act).breakdown.experienceScore =
      calculateExperienceScore emp act.activityType := rfl

theorem calculateEmployeeScore_progression (emp : Employee) (act : Activity) :
    (calculateEmployeeScore emp act).breakdown.progressionScore =
      calculateProgressionPotential emp.skillEvolution := rfl

theorem calculateEmployeeScore_context (emp : Employee) (act : Activity) :
    (calculateEmployeeScore emp act).breakdown.contextScore =
      calculateContextualFit act.targetLevel emp.level := rfl

/-! Claim C1. -/

/-- Counterexample to claim C1: the employee lacks the single mandatory
skill of the activity, yet `calculateEmployeeScore` returns
`totalScore = 27.5`, not 0, because the composite is the weighted sum of
the sub-scores and only the skill component is forced to 0. -/
def empC1 : Employee :=
  { id := 7, skills := [], yearsOfExperience := 5, skillEvolution := [],
    history := [], level := Level.LOW }

def actC1 : Activity :=
  { requiredSkills := [
      { skillId := 1, requiredLevel := Level.HIGH, weight := 1,
        isMandatory := true, minScore := 0 }],
    targetLevel := Level.LOW, activityType := 0, availableSeats := 5,
    filledSeats := 0 }

/-- Claim C1 is false on the code: a concrete employee missing a mandatory
skill still gets a nonzero `totalScore` (27.5) from
`calculateEmployeeScore`. -/
theorem mandatory_missing_total_nonzero_cex :
    (∃ r ∈ actC1.requiredSkills, r.isMandatory = true ∧
        findSkill empC1.skills r.skillId = none) ∧
      (calculateEmployeeScore empC1 actC1).totalScore = 55 / 2 ∧
      (calculateEmployeeScore empC1 actC1).totalScore ≠ 0 := by
  refine ⟨⟨_, List.mem_cons_self _ _, rfl, rfl⟩, ?_, ?_⟩ <;>
    norm_num [calculateEmployeeScore, calculateSkillMatch, skillMatchLoop,
      findSkill_nil, calculateExperienceScore, experienceScoreCore,
      experienceBase, experienceBonus, calculateRelevantExperience,
      calculateProgressionPotential, calculateContextualFit, levelMap,
      empC1, actC1]

/-- Claim C1, amended: if the employee lacks a skill the activity marks
mandatory, the skill sub-score of `calculateEmployeeScore` is 0 (the
disqualifying early return of `calculateSkillMatch`) and the
`MandatorySkillConstraint` marks the candidate ineligible; the
`totalScore`, however, is the weighted composite with the skill term 0,
not forced to 0. -/
theorem mandatory_missing_zeroes_skill_and_eligibility
    (emp : Employee) (act : Activity)
    (h : ∃ r ∈ act.requiredSkills, r.isMandatory = true ∧
        findSkill emp.skills r.skillId = none) :
    (calculateEmployeeScore emp act).breakdown.skillScore = 0 ∧
      mandatorySkillValidate emp act = false ∧
      (calculateEmployeeScore emp act).totalScore =
        calculateExperienceScore emp act.activityType * (2 / 10) +
          calculateProgressionPotential emp.skillEvolution * (15 / 100) +
          calculateContextualFit act.targetLevel emp.level * (15 / 100) := by
  have hskill : calculateSkillMatch emp.skills act.requiredSkills = 0 := by
    unfold calculateSkillMatch
    rw [skillMatchLoop_eq_none_of_missing _ _ _ _ h]
  refine ⟨?_, ?_, ?_⟩
  · rw [calculateEmployeeScore_skill]
    exact hskill
  · rcases h with ⟨r, hr, hm, hf⟩
    rw [mandatorySkillValidate, List.all_eq_false]
    refine ⟨r, List.mem_filter.mpr ⟨hr, hm⟩, ?_⟩
    rw [hf]
    simp
  · rw [calculateEmployeeScore_total, hskill]
    ring

/-- Witness for the amended claim C1 at a concrete input. -/
theorem mandatory_missing_zeroes_skill_and_eligibility_witness :
    (calculateEmployeeScore empC1 actC1).breakdown.skillScore = 0 ∧
      mandatorySkillValidate empC1 actC1 = false ∧
      (calculateEmployeeScore empC1 actC1).totalScore =
        calculateExperienceScore empC1 actC1.activityType * (2 / 10) +
          calculateProgressionPotential empC1.skillEvolution * (15 / 100) +
          calculateContextualFit actC1.targetLevel empC1.level * (15 / 100) :=
  mandatory_missing_zeroes_skill_and_eligibility empC1 actC1
    ⟨_, List.mem_cons_self _ _, rfl, rfl⟩

/-! Claim C2. -/

/-- Employee for the C2 counterexample: has skill 1 at the required level,
lacks the optional skill 2. -/
def empC2skills : List EmployeeSkill :=
  [{ skillId := 1, level := Level.HIGH, score := 0 }]

def reqC2 : List SkillRequirement :=
  [{ skillId := 1, requiredLevel := Level.HIGH, weight := 6 / 10,
     isMandatory := true, minScore := 0 },
   { skillId := 2, requiredLevel := Level.MEDIUM, weight := 4 / 10,
     isMandatory := false, minScore := 0 }]

/-- Claim C2 is false on the code: with no mandatory skill missing, the
loop adds the weight of the missing optional skill 2 to the denominator
before checking presence, so the code returns 60 where the formula of the
claim (denominator restricted to present skills) gives 100. -/
theorem skill_denominator_includes_missing_optional_cex :
    (∀ r ∈ reqC2, r.isMandatory = true → findSkill empC2skills r.skillId ≠ none) ∧
      calculateSkillMatch empC2skills reqC2 = 60 ∧
      specSkillMatch empC2skills reqC2 = 100 := by
  refine ⟨?_, ?_, ?_⟩
  · intro r hr
    rcases List.mem_cons.mp hr with rfl | hr2
    · intro _
      simp [empC2skills, findSkill_cons]
    · rcases List.mem_cons.mp hr2 with rfl | hr3
      · intro hm
        cases hm
      · cases hr3
  · norm_num [calculateSkillMatch, skillMatchLoop, findSkill_cons,
      findSkill_nil, calculateLevelMatch, levelMap, empC2skills, reqC2]
  · norm_num [specSkillMatch, skillNumerator, specPresentWeightSum,
      findSkill_cons, findSkill_nil, calculateLevelMatch, levelMap,
      empC2skills, reqC2]

/-- Claim C2, amended: with no mandatory skill missing,
`calculateSkillMatch` returns `100 * Σ(levelScore·w) / Σ(w)` where the
denominator `Σ(w)` sums the weights of ALL required skills — the weight
of a required skill the employee lacks (necessarily optional) stays in
the denominator while contributing 0 to the numerator — and the result
is 0 when the total weight is not positive. -/
theorem calculateSkillMatch_sum_formula (es : List EmployeeSkill)
    (rs : List SkillRequirement)
    (h : ∀ r ∈ rs, r.isMandatory = true → findSkill es r.skillId ≠ none) :
    calculateSkillMatch es rs =
      if 0 < skillWeightSum rs then
        skillNumerator es rs / skillWeightSum rs * 100
      else 0 := by
  unfold calculateSkillMatch
  rw [skillMatchLoop_eq_some es rs 0 0 h]
  norm_num

/-- Witness for the amended claim C2 at a concrete input. -/
theorem calculateSkillMatch_sum_formula_witness :
    calculateSkillMatch empC2skills reqC2 =
      if 0 < skillWeightSum reqC2 then
        skillNumerator empC2skills reqC2 / skillWeightSum reqC2 * 100
      else 0 :=
  calculateSkillMatch_sum_formula empC2skills reqC2 (by
    intro r hr
    rcases List.mem_cons.mp hr with rfl | hr2
    · intro _
      simp [empC2skills, findSkill_cons]
    · rcases List.mem_cons.mp hr2 with rfl | hr3
      · intro hm
        cases hm
      · cases hr3)

/-! Claim C4. -/

/-- Activity for the C4 counterexample: 2 available seats of which 1 is
already filled. -/
def actC4 : Activity :=
  { requiredSkills := [], targetLevel := Level.LOW, activityType := 0,
    availableSeats := 2, filledSeats := 1 }

/-- Claim C4 is false on the code: `SeatConstraint.apply` slices to
`availableSeats` and never reads `filledSeats`, so with 2 seats, 1 of
them filled, and 2 candidates it keeps both, exceeding
`availableSeats - filledSeats = 1`. -/
theorem seat_constraint_filledSeats_cex :
    actC4.filledSeats ≤ actC4.availableSeats ∧
      ¬((seatConstraintApply [0, 1] actC4).length ≤
        actC4.availableSeats - actC4.filledSeats) := by
  constructor
  · decide
  · decide

/-- Claim C4, amended: the selected set produced by
`SeatConstraint.apply` has length at most `availableSeats`; the
`filledSeats` field of the data model is not consulted. -/
theorem seat_constraint_le_availableSeats {α : Type} (candidates : List α)
    (act : Activity) :
    (seatConstraintApply candidates act).length ≤ act.availableSeats := by
  simp [seatConstraintApply]

/-! Claim C6. -/

/-- Employee and activity for the C6 counterexample: the employee has the
mandatory skill but one ordinal level below the requirement. -/
def empC6 : Employee :=
  { id := 3,
    skills := [{ skillId := 1, level := Level.LOW, score := 0 }],
    yearsOfExperience := 0, skillEvolution := [], history := [],
    level := Level.LOW }

def actC6 : Activity :=
  { requiredSkills := [
      { skillId := 1, requiredLevel := Level.MEDIUM, weight := 1,
        isMandatory := true, minScore := 0 }],
    targetLevel := Level.LOW, activityType := 0, availableSeats := 1,
    filledSeats := 0 }

/-- Claim C6 is false on the code: `MandatorySkillConstraint.validate`
also rejects an employee whose mandatory skill is present but
under-leveled, while the skill-match step only disqualifies on absence —
so the two are not equivalent. -/
theorem mandatory_constraint_scorer_not_equiv_cex :
    mandatorySkillValidate empC6 actC6 = false ∧
      skillMatchDisqualified empC6.skills actC6.requiredSkills = false := by
  constructor
  · norm_num [mandatorySkillValidate, findSkill_cons, levelMap, empC6, actC6]
  · norm_num [skillMatchDisqualified, skillMatchLoop, findSkill_cons,
      findSkill_nil, empC6, actC6]

/-- Claim C6, amended: the implication holds in one direction only — if
`MandatorySkillConstraint.validate` passes an employee, then the
skill-match step of the score calculator does not disqualify that
employee; the converse fails because the constraint additionally rejects
present-but-under-leveled mandatory skills. -/
theorem mandatory_constraint_implies_scorer_pass (emp : Employee)
    (act : Activity) (h : mandatorySkillValidate emp act = true) :
    skillMatchDisqualified emp.skills act.requiredSkills = false := by
  unfold skillMatchDisqualified
  cases hl : skillMatchLoop emp.skills act.requiredSkills 0 0 with
  | some p => rfl
  | none =>
    exfalso
    rcases missing_of_skillMatchLoop_eq_none _ _ _ _ hl with ⟨r, hr, hm, hf⟩
    rw [mandatorySkillValidate, List.all_eq_true] at h
    have hpred := h r (List.mem_filter.mpr ⟨hr, hm⟩)
    rw [hf] at hpred
    cases hpred

/-- Witness for the amended claim C6 at a concrete input where the
constraint passes. -/
theorem mandatory_constraint_implies_scorer_pass_witness :
    skillMatchDisqualified empC2skills reqC2 = false :=
  mandatory_constraint_implies_scorer_pass
    { id := 9, skills := empC2skills, yearsOfExperience := 0,
      skillEvolution := [], history := [], level := Level.HIGH }
    { requiredSkills := reqC2, targetLevel := Level.HIGH, activityType := 0,
      availableSeats := 1, filledSeats := 0 }
    (by norm_num [mandatorySkillValidate, findSkill_cons, levelMap,
      empC2skills, reqC2])

/-! Claim C7. -/

/-- Activity of the end-to-end example: Skill A (id 1) mandatory HIGH
weight 0.6, Skill B (id 2) optional MEDIUM weight 0.4, target HIGH. -/
def actC7 : Activity :=
  { requiredSkills := [
      { skillId := 1, requiredLevel := Level.HIGH, weight := 6 / 10,
        isMandatory := true, minScore := 0 },
      { skillId := 2, requiredLevel := Level.MEDIUM, weight := 4 / 10,
        isMandatory := false, minScore := 0 }],
    targetLevel := Level.HIGH, activityType := 0, availableSeats := 5,
    filledSeats := 0 }

/-- Employee of the end-to-end example: A at EXPERT, B at LOW, 5 years of
experience, no history, overall level EXPERT. -/
def empC7 : Employee :=
  { id := 1,
    skills := [
      { skillId := 1, level := Level.EXPERT, score := 0 },
      { skillId := 2, level := Level.LOW, score := 0 }],
    yearsOfExperience := 5, skillEvolution := [], history := [],
    level := Level.EXPERT }

/-- Claim C7: on the end-to-end example the code returns
skillScore 74, experienceScore 25, progressionScore 50, contextScore 80
and totalScore 61.5. -/
theorem end_to_end_example_scores :
    (calculateEmployeeScore empC7 actC7).breakdown.skillScore = 74 ∧
      (calculateEmployeeScore empC7 actC7).breakdown.experienceScore = 25 ∧
      (calculateEmployeeScore empC7 actC7).breakdown.progressionScore = 50 ∧
      (calculateEmployeeScore empC7 actC7).breakdown.contextScore = 80 ∧
      (calculateEmployeeScore empC7 actC7).totalScore = 123 / 2 := by
  refine ⟨?_, ?_, ?_, ?_, ?_⟩ <;>
    norm_num [calculateEmployeeScore, calculateSkillMatch, skillMatchLoop,
      findSkill_cons, findSkill_nil, calculateLevelMatch, levelMap,
      calculateExperienceScore, experienceScoreCore, experienceBase,
      experienceBonus, calculateRelevantExperience,
      calculateProgressionPotential, calculateContextualFit, empC7, actC7]

/-! Claim C5. -/

theorem tieCmp_antisymm (a b : TieCandidate) : tieCmp b a = -tieCmp a b := by
  unfold tieCmp
  by_cases h1 : a.progressionScore = b.progressionScore
  · by_cases h2 : a.availabilityScore = b.availabilityScore
    · rw [if_neg (not_not_intro h1.symm), if_neg (not_not_intro h1),
        if_neg (not_not_intro h2.symm), if_neg (not_not_intro h2)]
      ring
    · have h2s : ¬b.availabilityScore = a.availabilityScore :=
        fun hh => h2 hh.symm
      rw [if_neg (not_not_intro h1.symm), if_neg (not_not_intro h1),
        if_pos h2s, if_pos h2]
      ring
  · have h1s : ¬b.progressionScore = a.progressionScore :=
      fun hh => h1 hh.symm
    rw [if_pos h1s, if_pos h1]
    ring

theorem tieLe_iff (a b : TieCandidate) :
    tieLe a b ↔
      b.progressionScore < a.progressionScore ∨
        (a.progressionScore = b.progressionScore ∧
          (b.availabilityScore < a.availabilityScore ∨
            (a.availabilityScore = b.availabilityScore ∧
              a.lastActivityDate ≤ b.lastActivityDate))) := by
  unfold tieLe tieCmp
  by_cases h1 : a.progressionScore = b.progressionScore
  · by_cases h2 : a.availabilityScore = b.availabilityScore
    · simp [h1, h2, sub_nonpos]
    · simp only [h1, h2, ne_eq, not_true_eq_false, if_false,
        not_false_eq_true, if_true, sub_nonpos, true_and, lt_self_iff_false,
        false_or]
      constructor
      · intro hle
        left
        exact lt_of_le_of_ne hle (fun hh => h2 hh.symm)
      · rintro (hlt | ⟨heq, _⟩)
        · exact le_of_lt hlt
        · exact heq.elim
  · simp only [h1, ne_eq, not_false_eq_true, if_true, sub_nonpos,
      false_and, or_false]
    constructor
    · intro hle
      exact lt_of_le_of_ne hle (fun hh => h1 hh.symm)
    · exact le_of_lt

instance : IsTotal TieCandidate tieLe :=
  ⟨fun a b => by
    unfold tieLe
    rcases le_or_lt (tieCmp a b) 0 with h | h
    · exact Or.inl h
    · refine Or.inr ?_
      rw [tieCmp_antisymm]
      linarith⟩

instance : IsTrans TieCandidate tieLe :=
  ⟨fun a b c hab hbc => by
    rw [tieLe_iff] at hab hbc ⊢
    rcases hab with h | ⟨e1, hab2⟩
    · rcases hbc with h2 | ⟨e2, _⟩
      · exact Or.inl (by linarith)
      · exact Or.inl (by rw [← e2]; exact h)
    · rcases hbc with h2 | ⟨e2, hbc2⟩
      · exact Or.inl (by rw [e1]; exact h2)
      · refine Or.inr ⟨e1.trans e2, ?_⟩
        rcases hab2 with h | ⟨f1, hab3⟩
        · rcases hbc2 with h2 | ⟨f2, _⟩
          · exact Or.inl (by linarith)
          · exact Or.inl (by rw [← f2]; exact h)
        · rcases hbc2 with h2 | ⟨f2, hbc3⟩
          · exact Or.inl (by rw [f1]; exact h2)
          · exact Or.inr ⟨f1.trans f2, le_trans hab3 hbc3⟩⟩

/-- Candidates for the C5 counterexample: equal total and progression
scores; cA has the higher contextScore, cB the higher availabilityScore. -/
def cA : TieCandidate :=
  { candidateId := 1, totalScore := 50, progressionScore := 60,
    contextScore := 80, availabilityScore := 10, lastActivityDate := 5 }

def cB : TieCandidate :=
  { candidateId := 2, totalScore := 50, progressionScore := 60,
    contextScore := 50, availabilityScore := 90, lastActivityDate := 5 }

/-- Claim C5 is false on the code: for two candidates whose total scores
are equal (difference below 1e-6), the spec precedence (higher
contextScore second) puts cA first, but the comparator of `breakTies`
uses availabilityScore as its second key and returns cB first; there is
no candidate-id fallback in the code. -/
theorem breakTies_context_precedence_cex :
    |cA.totalScore - cB.totalScore| < 1 / 1000000 ∧
      specTieBefore cA cB ∧
      breakTies [cA, cB] = [cB, cA] := by
  refine ⟨?_, ?_, ?_⟩
  · norm_num [cA, cB]
  · norm_num [specTieBefore, cA, cB]
  · norm_num [breakTies, List.insertionSort, List.orderedInsert, tieLe,
      tieCmp, cA, cB]

/-- Claim C5, amended: `breakTies` deterministically sorts the candidate
list by the code comparator — higher progressionScore first, then higher
availabilityScore (not contextScore), then ascending lastActivityDate,
with no candidate-id fallback: the output is a permutation of the input
ordered so that consecutive pairs satisfy the comparator. -/
theorem breakTies_sorted_by_code_comparator (candidates : List TieCandidate) :
    (breakTies candidates).Perm candidates ∧
      List.Sorted tieLe (breakTies candidates) :=
  ⟨List.perm_insertionSort tieLe candidates,
    List.sorted_insertionSort tieLe candidates⟩

/-! Claim C3. -/

theorem paretoLoop_append (objectives : List (Employee → Activity → ℚ))
    (activity : Activity) (employees : List Employee)
    (front : List FrontEntry) :
    ∃ t, paretoLoop objectives activity employees front = front ++ t := by
  induction employees generalizing front with
  | nil => exact ⟨[], by simp [paretoLoop]⟩
  | cons e rest ih =>
    rw [paretoLoop]
    by_cases h : isDominated (objScores objectives activity e) front = true
    · rw [if_pos h]
      exact ih front
    · rw [if_neg h]
      rcases ih (front ++ [FrontEntry.mk e (objScores objectives activity e)])
        with ⟨t, ht⟩
      refine ⟨FrontEntry.mk e (objScores objectives activity e) :: t, ?_⟩
      rw [ht, List.append_assoc]
      rfl

theorem paretoLoop_pairwise (objectives : List (Employee → Activity → ℚ))
    (activity : Activity) (employees : List Employee)
    (front : List FrontEntry)
    (hp : front.Pairwise (fun x y => dominatesB x.scores y.scores = false)) :
    (paretoLoop objectives activity employees front).Pairwise
      (fun x y => dominatesB x.scores y.scores = false) := by
  induction employees generalizing front with
  | nil => exact hp
  | cons e rest ih =>
    rw [paretoLoop]
    by_cases h : isDominated (objScores objectives activity e) front = true
    · rw [if_pos h]
      exact ih front hp
    · rw [if_neg h]
      apply ih
      rw [List.pairwise_append]
      refine ⟨hp, List.pairwise_singleton _ _, ?_⟩
      intro x hx y hy
      rw [List.mem_singleton] at hy
      subst hy
      have hfalse : (front.any fun f =>
          dominatesB f.scores (objScores objectives activity e)) = false := by
        rw [isDominated] at h
        exact Bool.not_eq_true _ ▸ eq_false_of_ne_true h
      rw [List.any_eq_false] at hfalse
      have hx2 := hfalse x hx
      simpa using hx2

theorem paretoLoop_complete (objectives : List (Employee → Activity → ℚ))
    (activity : Activity) (employees : List Employee)
    (front : List FrontEntry) (e : Employee) (he : e ∈ employees)
    (hnot : ∀ f ∈ paretoLoop objectives activity employees front,
      f.employee ≠ e) :
    ∃ f ∈ paretoLoop objectives activity employees front,
      dominatesB f.scores (objScores objectives activity e) = true := by
  induction employees generalizing front with
  | nil => cases he
  | cons a rest ih =>
    rcases List.mem_cons.mp he with rfl | he2
    · by_cases h : isDominated (objScores objectives activity e) front = true
      · rcases paretoLoop_append objectives activity (e :: rest) front
          with ⟨t, ht⟩
        rw [isDominated, List.any_eq_true] at h
        rcases h with ⟨x, hx, hdom⟩
        refine ⟨x, ?_, by simpa using hdom⟩
        rw [ht]
        exact List.mem_append_left t hx
      · exfalso
        rw [paretoLoop, if_neg h] at hnot
        rcases paretoLoop_append objectives activity rest
            (front ++ [FrontEntry.mk e (objScores objectives activity e)])
          with ⟨t, ht⟩
        refine hnot (FrontEntry.mk e (objScores objectives activity e)) ?_ rfl
        rw [ht]
        exact List.mem_append_left t
          (List.mem_append_right front (List.mem_singleton.mpr rfl))
    · rw [paretoLoop] at hnot ⊢
      by_cases h : isDominated (objScores objectives activity a) front = true
      · rw [if_pos h] at hnot ⊢
        exact ih front he2 hnot
      · rw [if_neg h] at hnot ⊢
        exact ih _ he2 hnot

/-- Claim C3 is false on the code: with the single objective
yearsOfExperience and employees processed in increasing order, the
one-pass loop keeps the first employee in the front even though the
second employee, also in the front, dominates it. -/
def actC3 : Activity :=
  { requiredSkills := [], targetLevel := Level.LOW, activityType := 0,
    availableSeats := 3, filledSeats := 0 }

def empC3a : Employee :=
  { id := 1, skills := [], yearsOfExperience := 1, skillEvolution := [],
    history := [], level := Level.LOW }

def empC3b : Employee :=
  { id := 2, skills := [], yearsOfExperience := 2, skillEvolution := [],
    history := [], level := Level.LOW }

def objC3 : Employee → Activity → ℚ := fun e _ => e.yearsOfExperience

/-- Claim C3 is false on the code: the returned front contains a member
dominated by another candidate of the full input set. -/
theorem pareto_front_dominated_member_cex :
    ¬specParetoFrontCorrect [empC3a, empC3b] actC3 [objC3] := by
  intro h
  have h1 := h.1 { employee := empC3a, scores := [1] }
    (by norm_num [multiObjectiveOptimize, paretoLoop, objScores,
      isDominated, dominatesB, objC3, empC3a, empC3b])
    empC3b (by norm_num)
  apply h1
  norm_num [objScores, dominatesB, objC3, empC3a, empC3b]

/-- Claim C3, amended: the loop guarantees only one-sided dominance
checks — no front member is dominated by a front member pushed before
it, and every input candidate absent from the front is dominated by some
front member; a front member may still be dominated by a
later-processed candidate. -/
theorem pareto_front_partial_correct (employees : List Employee)
    (activity : Activity) (objectives : List (Employee → Activity → ℚ)) :
    (multiObjectiveOptimize employees activity objectives).Pairwise
        (fun x y => dominatesB x.scores y.scores = false) ∧
      ∀ e ∈ employees,
        (∀ f ∈ multiObjectiveOptimize employees activity objectives,
            f.employee ≠ e) →
          ∃ f ∈ multiObjectiveOptimize employees activity objectives,
            dominatesB f.scores (objScores objectives activity e) = true := by
  constructor
  · exact paretoLoop_pairwise objectives activity employees [] List.Pairwise.nil
  · intro e he hnot
    exact paretoLoop_complete objectives activity employees [] e he hnot

/-- Witness for the amended claim C3: with the dominated employee first
in the input, the front contains only the dominating employee, and the
theorem yields a front member dominating the excluded one. -/
theorem pareto_front_partial_correct_witness :
    ∃ f ∈ multiObjectiveOptimize [empC3b, empC3a] actC3 [objC3],
      dominatesB f.scores (objScores [objC3] actC3 empC3a) = true :=
  (pareto_front_partial_correct [empC3b, empC3a] actC3 [objC3]).2 empC3a
    (by norm_num)
    (by
      intro f hf
      norm_num [multiObjectiveOptimize, paretoLoop, objScores, isDominated,
        dominatesB, objC3, empC3a, empC3b] at hf
      rw [hf]
      norm_num [empC3a, empC3b])

/-! Claim C8. -/

theorem calculateLevelMatch_bounds (el rl : Level) :
    0 ≤ calculateLevelMatch el rl ∧ calculateLevelMatch el rl ≤ 1 := by
  cases el <;> cases rl <;> norm_num [calculateLevelMatch, levelMap]

theorem skillMatchLoop_bounds (es : List EmployeeSkill)
    (rs : List SkillRequirement) :
    ∀ tw ws tw2 ws2 : ℚ, (∀ r ∈ rs, 0 ≤ r.weight) → 0 ≤ ws → ws ≤ tw →
      skillMatchLoop es rs tw ws = some (tw2, ws2) →
      0 ≤ ws2 ∧ ws2 ≤ tw2 := by
  induction rs with
  | nil =>
    intro tw ws tw2 ws2 _ h0 h1 h
    rw [skillMatchLoop] at h
    obtain ⟨rfl, rfl⟩ := Prod.mk.injEq .. ▸ Option.some.injEq .. ▸ h
    exact ⟨h0, h1⟩
  | cons a rest ih =>
    intro tw ws tw2 ws2 hw h0 h1 h
    have hwa : 0 ≤ a.weight := hw a (List.mem_cons_self a rest)
    have hwr : ∀ r ∈ rest, 0 ≤ r.weight :=
      fun r hr => hw r (List.mem_cons_of_mem a hr)
    cases hfind : findSkill es a.skillId with
    | none =>
      rw [skillMatchLoop, hfind] at h
      cases hman : a.isMandatory with
      | true => rw [hman] at h; simp at h
      | false =>
        rw [hman] at h
        simp only [if_neg Bool.false_ne_true] at h
        exact ih _ _ _ _ hwr h0 (by linarith) h
    | some s =>
      rw [skillMatchLoop, hfind] at h
      have hls := calculateLevelMatch_bounds s.level a.requiredLevel
      refine ih _ _ _ _ hwr ?_ ?_ h
      · have : 0 ≤ calculateLevelMatch s.level a.requiredLevel * a.weight :=
          mul_nonneg hls.1 hwa
        linarith
      · have : calculateLevelMatch s.level a.requiredLevel * a.weight ≤
            a.weight := mul_le_of_le_one_left hwa hls.2
        linarith

theorem calculateSkillMatch_bounds (es : List EmployeeSkill)
    (rs : List SkillRequirement) (hw : ∀ r ∈ rs, 0 ≤ r.weight) :
    0 ≤ calculateSkillMatch es rs ∧ calculateSkillMatch es rs ≤ 100 := by
  unfold calculateSkillMatch
  cases h : skillMatchLoop es rs 0 0 with
  | none => norm_num
  | some p =>
    obtain ⟨tw2, ws2⟩ := p
    have hb := skillMatchLoop_bounds es rs 0 0 tw2 ws2 hw le_rfl le_rfl h
    dsimp only
    by_cases ht : (0 : ℚ) < tw2
    · rw [if_pos ht]
      constructor
      · exact mul_nonneg (div_nonneg hb.1 (le_of_lt ht)) (by norm_num)
      · have hdiv : ws2 / tw2 ≤ 1 := (div_le_one ht).mpr hb.2
        nlinarith
    · rw [if_neg ht]
      norm_num

theorem experienceScoreCore_bounds (t r : ℚ) (ht : 0 ≤ t) (hr : 0 ≤ r) :
    0 ≤ experienceScoreCore t r ∧ experienceScoreCore t r ≤ 100 := by
  unfold experienceScoreCore experienceBase experienceBonus
  constructor
  · have h1 : 0 ≤ min (t * 5) 50 := le_min (by linarith) (by norm_num)
    have h2 : 0 ≤ min (r * 10) 50 := le_min (by linarith) (by norm_num)
    exact le_min (by linarith) (by norm_num)
  · exact min_le_right _ _

theorem calculateProgressionPotential_bounds (ev : List SkillEvolution) :
    0 ≤ calculateProgressionPotential ev ∧
      calculateProgressionPotential ev ≤ 100 := by
  unfold calculateProgressionPotential
  split_ifs with h
  · norm_num
  · exact ⟨le_min (le_max_right _ _) (by norm_num), min_le_right _ _⟩

theorem calculateContextualFit_bounds (tl el : Level) :
    0 ≤ calculateContextualFit tl el ∧ calculateContextualFit tl el ≤ 100 := by
  cases tl <;> cases el <;> norm_num [calculateContextualFit, levelMap]

/-- Claim C8: under the data-model invariants (nonnegative requirement
weights and nonnegative years of experience), every field of the
breakdown and the total score returned by `calculateEmployeeScore` lie
in the closed interval 0 to 100. -/
theorem score_breakdown_in_range (emp : Employee) (act : Activity)
    (hy : 0 ≤ emp.yearsOfExperience)
    (hw : ∀ r ∈ act.requiredSkills, 0 ≤ r.weight) :
    (0 ≤ (calculateEmployeeScore emp act).breakdown.skillScore ∧
        (calculateEmployeeScore emp act).breakdown.skillScore ≤ 100) ∧
      (0 ≤ (calculateEmployeeScore emp act).breakdown.experienceScore ∧
        (calculateEmployeeScore emp act).breakdown.experienceScore ≤ 100) ∧
      (0 ≤ (calculateEmployeeScore emp act).breakdown.progressionScore ∧
        (calculateEmployeeScore emp act).breakdown.progressionScore ≤ 100) ∧
      (0 ≤ (calculateEmployeeScore emp act).breakdown.contextScore ∧
        (calculateEmployeeScore emp act).breakdown.contextScore ≤ 100) ∧
      (0 ≤ (calculateEmployeeScore emp act).totalScore ∧
        (calculateEmployeeScore emp act).totalScore ≤ 100) := by
  have hs := calculateSkillMatch_bounds emp.skills act.requiredSkills hw
  have he := experienceScoreCore_bounds emp.yearsOfExperience
    (calculateRelevantExperience emp.history act.activityType) hy
    (by unfold calculateRelevantExperience; positivity)
  have hp := calculateProgressionPotential_bounds emp.skillEvolution
  have hc := calculateContextualFit_bounds act.targetLevel emp.level
  rw [calculateEmployeeScore_skill, calculateEmployeeScore_experience,
    calculateEmployeeScore_progression, calculateEmployeeScore_context,
    calculateEmployeeScore_total]
  rw [calculateExperienceScore] at *
  refine ⟨hs, he, hp, hc, ?_, ?_⟩ <;> nlinarith [hs.1, hs.2, he.1, he.2,
    hp.1, hp.2, hc.1, hc.2]

/-- Witness for claim C8 at the end-to-end example input. -/
theorem score_breakdown_in_range_witness :
    (0 ≤ (calculateEmployeeScore empC7 actC7).breakdown.skillScore ∧
        (calculateEmployeeScore empC7 actC7).breakdown.skillScore ≤ 100) ∧
      (0 ≤ (calculateEmployeeScore empC7 actC7).breakdown.experienceScore ∧
        (calculateEmployeeScore empC7 actC7).breakdown.experienceScore ≤ 100) ∧
      (0 ≤ (calculateEmployeeScore empC7 actC7).breakdown.progressionScore ∧
        (calculateEmployeeScore empC7 actC7).breakdown.progressionScore ≤ 100) ∧
      (0 ≤ (calculateEmployeeScore empC7 actC7).breakdown.contextScore ∧
        (calculateEmployeeScore empC7 actC7).breakdown.contextScore ≤ 100) ∧
      (0 ≤ (calculateEmployeeScore empC7 actC7).totalScore ∧
        (calculateEmployeeScore empC7 actC7).totalScore ≤ 100) :=
  score_breakdown_in_range empC7 actC7 (by norm_num [empC7])
    (by
      intro r hr
      rcases List.mem_cons.mp hr with rfl | hr2
      · norm_num
      · rcases List.mem_cons.mp hr2 with rfl | hr3
        · norm_num
        · cases hr3)

/-! Claim C9. -/

/-- The fields of an employee skill record that `calculateSkillMatch`
actually reads. -/
def skillKey (s : EmployeeSkill) : ℕ × Level :=
  (s.skillId, s.level)

/-- The fields of a skill requirement that `calculateSkillMatch` actually
reads (everything except `minScore`). -/
def reqKey (r : SkillRequirement) : ℕ × Level × ℚ × Bool :=
  (r.skillId, r.requiredLevel, r.weight, r.isMandatory)

theorem findSkill_congr {es1 es2 : List EmployeeSkill}
    (h : es1.map skillKey = es2.map skillKey) (id : ℕ) :
    (findSkill es1 id).map skillKey = (findSkill es2 id).map skillKey := by
  induction es1 generalizing es2 with
  | nil =>
    cases es2 with
    | nil => rfl
    | cons b t2 => simp at h
  | cons a t ih =>
    cases es2 with
    | nil => simp at h
    | cons b t2 =>
      rw [List.map_cons, List.map_cons] at h
      have hhead : skillKey a = skillKey b := (List.cons.injEq .. ▸ h).1
      have htail : t.map skillKey = t2.map skillKey := (List.cons.injEq .. ▸ h).2
      have hid : a.skillId = b.skillId := (Prod.mk.injEq .. ▸ hhead).1
      by_cases hcase : a.skillId = id
      · have hb : b.skillId = id := by rw [← hid]; exact hcase
        rw [findSkill_cons, findSkill_cons, if_pos hcase, if_pos hb]
        simpa using hhead
      · have hb : ¬b.skillId = id := by rw [← hid]; exact hcase
        rw [findSkill_cons, findSkill_cons, if_neg hcase, if_neg hb]
        exact ih htail

theorem skillMatchLoop_congr {es1 es2 : List EmployeeSkill}
    {rs1 rs2 : List SkillRequirement}
    (hes : es1.map skillKey = es2.map skillKey)
    (hrs : rs1.map reqKey = rs2.map reqKey) :
    ∀ tw ws : ℚ, skillMatchLoop es1 rs1 tw ws = skillMatchLoop es2 rs2 tw ws := by
  induction rs1 generalizing rs2 with
  | nil =>
    cases rs2 with
    | nil => intro tw ws; rfl
    | cons b t2 => simp at hrs
  | cons a t ih =>
    cases rs2 with
    | nil => simp at hrs
    | cons b t2 =>
      intro tw ws
      rw [List.map_cons, List.map_cons] at hrs
      have hhead : reqKey a = reqKey b := (List.cons.injEq .. ▸ hrs).1
      have htail : t.map reqKey = t2.map reqKey := (List.cons.injEq .. ▸ hrs).2
      have hid : a.skillId = b.skillId := (Prod.mk.injEq .. ▸ hhead).1
      have hlev : a.requiredLevel = b.requiredLevel := by
        have := (Prod.mk.injEq .. ▸ hhead).2
        exact (Prod.mk.injEq .. ▸ this).1
      have hwt : a.weight = b.weight := by
        have h2 := (Prod.mk.injEq .. ▸ hhead).2
        have h3 := (Prod.mk.injEq .. ▸ (Prod.mk.injEq .. ▸ h2).2).1
        exact h3
      have hman : a.isMandatory = b.isMandatory := by
        have h2 := (Prod.mk.injEq .. ▸ hhead).2
        have h3 := (Prod.mk.injEq .. ▸ (Prod.mk.injEq .. ▸ h2).2).2
        exact h3
      have hfind := findSkill_congr hes a.skillId
      rw [skillMatchLoop, skillMatchLoop, ← hid]
      cases hf1 : findSkill es1 a.skillId with
      | none =>
        rw [hf1] at hfind
        cases hf2 : findSkill es2 a.skillId with
        | none =>
          rw [hf2] at hfind
          dsimp only
          rw [hman, hwt]
          cases b.isMandatory
          · simp only [if_neg Bool.false_ne_true]
            exact ih htail _ _
          · rfl
        | some s2 => rw [hf2] at hfind; simp at hfind
      | some s1 =>
        rw [hf1] at hfind
        cases hf2 : findSkill es2 a.skillId with
        | none => rw [hf2] at hfind; simp at hfind
        | some s2 =>
          rw [hf2] at hfind
          have hkey : skillKey s1 = skillKey s2 := by simpa using hfind
          have hslev : s1.level = s2.level := (Prod.mk.injEq .. ▸ hkey).2
          dsimp only
          rw [hslev, hlev, hwt]
          exact ih htail _ _

/-- Claim C9: the skill sub-score reads only the skill ids and ordinal
levels — two employees whose skill lists agree on (skillId, level) and
two requirement lists agreeing on everything but `minScore` produce the
same `calculateSkillMatch` result; the per-skill `score` and the
`minScore` fields have no influence. -/
theorem skillMatch_depends_only_on_id_and_level
    (es1 es2 : List EmployeeSkill) (rs1 rs2 : List SkillRequirement)
    (hes : es1.map skillKey = es2.map skillKey)
    (hrs : rs1.map reqKey = rs2.map reqKey) :
    calculateSkillMatch es1 rs1 = calculateSkillMatch es2 rs2 := by
  unfold calculateSkillMatch
  rw [skillMatchLoop_congr hes hrs 0 0]

/-- Witness for claim C9: same ids and levels, different score and
minScore fields, equal results. -/
theorem skillMatch_depends_only_on_id_and_level_witness :
    calculateSkillMatch
        [{ skillId := 1, level := Level.HIGH, score := 0 }]
        [{ skillId := 1, requiredLevel := Level.HIGH, weight := 6 / 10,
           isMandatory := true, minScore := 0 }] =
      calculateSkillMatch
        [{ skillId := 1, level := Level.HIGH, score := 99 }]
        [{ skillId := 1, requiredLevel := Level.HIGH, weight := 6 / 10,
           isMandatory := true, minScore := 77 }] :=
  skillMatch_depends_only_on_id_and_level _ _ _ _ rfl rfl

/-! Claim C10. -/

/-- Claim C10: the experience sub-score is monotone in total years of
experience and in relevant experience, its base term is capped at 50,
its bonus term is capped at 50, and the final value is capped at 100. -/
theorem experience_monotone_and_capped :
    (∀ t1 t2 r : ℚ, t1 ≤ t2 →
        experienceScoreCore t1 r ≤ experienceScoreCore t2 r) ∧
      (∀ t r1 r2 : ℚ, r1 ≤ r2 →
        experienceScoreCore t r1 ≤ experienceScoreCore t r2) ∧
      (∀ t : ℚ, experienceBase t ≤ 50) ∧
      (∀ r : ℚ, experienceBonus r ≤ 50) ∧
      (∀ t r : ℚ, experienceScoreCore t r ≤ 100) := by
  refine ⟨?_, ?_, ?_, ?_, ?_⟩
  · intro t1 t2 r h
    unfold experienceScoreCore experienceBase
    exact min_le_min (add_le_add_right (min_le_min (by linarith) le_rfl) _)
      le_rfl
  · intro t r1 r2 h
    unfold experienceScoreCore experienceBonus
    exact min_le_min (add_le_add_left (min_le_min (by linarith) le_rfl) _)
      le_rfl
  · intro t
    exact min_le_right _ _
  · intro r
    exact min_le_right _ _
  · intro t r
    exact min_le_right _ _

/-- Witness for claim C10 at concrete inputs. -/
theorem experience_monotone_and_capped_witness :
    experienceScoreCore 3 1 ≤ experienceScoreCore 4 1 ∧
      experienceScoreCore 3 1 ≤ experienceScoreCore 3 2 ∧
      experienceScoreCore 20 9 ≤ 100 :=
  ⟨experience_monotone_and_capped.1 3 4 1 (by norm_num),
    experience_monotone_and_capped.2.1 3 1 2 (by norm_num),
    experience_monotone_and_capped.2.2.2.2 20 9⟩
